import Mathlib

/-!
Shallow embedding of the Payment Intent Lifecycle & Callback Reconciliation
Engine of the doctor-booking backend (src/routers/mpesa.routes.js and
src/utils/MPESA/getAccessToken.js).

The `payments` table is modelled as a `List Payment` in insertion order
(MySQL auto-increment primary keys; a `SELECT` without an `ORDER BY` clause is
modelled as returning rows in table order, i.e. insertion order — the code's
only ordered query, `GET /payments`, says `ORDER BY created_at DESC`
explicitly). `conn.execute` calls are modelled as pure functions on the list;
a `LIKE` pattern of the form `%x%` is modelled as substring containment of `x`.
JavaScript values appearing in callback JSON fields are modelled by `JVal`,
so that the strict comparison `ResultCode === 0` can distinguish the number
`0` from the string `"0"` and from an absent field.
-/

namespace MpesaRoutes

/-- Payment status strings stored in the `status` column. -/
inductive PStatus
  | Pending
  | Completed
  | Failed
deriving DecidableEq, Repr

/-- A row of the `payments` table. The columns named in the code's queries are
`id`, `mpesa_receipt` (holding the gateway checkout request id), `phone_number`,
`amount`, `status`, `user_id`, `created_at`, `updated_at`; the spec's data model
additionally names `failureReason` and `transactionDate`, carried here as
optional columns that the code's queries never reference. Timestamps are
abstract `Nat` ticks. -/
structure Payment where
  id : Nat
  mpesa_receipt : String
  phone_number : String
  amount : Int
  status : PStatus
  user_id : Nat
  failure_reason : Option String := none
  transaction_date : Option Nat := none
  created_at : Nat := 0
  updated_at : Nat := 0
deriving DecidableEq, Repr

/-- A JavaScript/JSON scalar value, as delivered in a parsed callback body. -/
inductive JVal
  | jnum (n : Int)
  | jstr (s : String)
  | jbool (b : Bool)
  | jnull
deriving DecidableEq, Repr

/-- The destructured fields of `Body.stkCallback`. `ResultCode` is kept as an
optional `JVal` because the handler compares it with strict equality
(`ResultCode === 0`) without checking its presence or type. `CallbackMetadata`
is the optional `Item` list of `{Name, Value}` pairs. -/
structure StkCallback where
  MerchantRequestID : Option JVal := none
  CheckoutRequestID : String
  ResultCode : Option JVal
  ResultDesc : String
  CallbackMetadata : Option (List (String × JVal)) := none
deriving DecidableEq, Repr

/-- The shape of a request body reaching `router.post("/callback")`, after
express's JSON parsing: not an object at all, an object missing
`Body.stkCallback`, or a destructurable `stkCallback` envelope. -/
inductive CallbackReq
  | notObject
  | noStk
  | stk (cb : StkCallback)
deriving DecidableEq, Repr

/-- The JSON response sent by the callback endpoint. -/
structure CallbackResponse where
  httpStatus : Nat
  resultCode : Int
  resultDesc : String
deriving DecidableEq, Repr

/-- Status mapping `const status = ResultCode === 0 ? "Completed" : "Failed"` — strict
equality with the number `0` (mpesa.routes.js line 181). -/
def statusOf (rc : Option JVal) : PStatus :=
  if rc = some (JVal.jnum 0) then PStatus.Completed else PStatus.Failed

/-- Exact lookup `SELECT * FROM payments WHERE mpesa_receipt = ?` — rows whose receipt
equals the checkout id, in table order. -/
def exactMatches (db : List Payment) (cid : String) : List Payment :=
  db.filter (fun p => p.mpesa_receipt = cid)

/-- Substring containment on the underlying character lists, modelling a SQL
`LIKE` match against the pattern `'%' ++ cid ++ '%'`. -/
def likeContains (receipt cid : String) : Bool :=
  decide (cid.data <:+: receipt.data)

/-- Wildcard lookup `SELECT * FROM payments WHERE mpesa_receipt LIKE ?` with `[%cid%]` — the
wildcard fallback search. The query has no `ORDER BY` clause, so the rows come
back in table order. -/
def wildcardMatches (db : List Payment) (cid : String) : List Payment :=
  db.filter (fun p => likeContains p.mpesa_receipt cid)

/-- Statement `UPDATE payments SET status = ? WHERE mpesa_receipt = ?` — sets the status
of every row whose receipt equals the checkout id; no other column is touched
and no condition on the current status is present. -/
def updateByReceipt (db : List Payment) (cid : String) (s : PStatus) : List Payment :=
  db.map (fun p => if p.mpesa_receipt = cid then { p with status := s } else p)

/-- Statement `UPDATE payments SET status = ? WHERE id = ?` — sets the status of the row
with the given primary key; no other column is touched and no condition on the
current status is present. -/
def updateById (db : List Payment) (i : Nat) (s : PStatus) : List Payment :=
  db.map (fun p => if p.id = i then { p with status := s } else p)

/-- Fault flags for the four `conn.execute` calls the callback handler can
reach, in program order; a `true` flag makes that call throw a storage error,
transferring control to the handler's `catch` block. -/
structure Faults where
  exactSelect : Bool
  wildcardSelect : Bool
  update : Bool
  verifySelect : Bool
deriving DecidableEq, Repr

/-- No storage faults: every `conn.execute` succeeds. -/
def noFaults : Faults := ⟨false, false, false, false⟩

/-- The `catch` block's acknowledgment (mpesa.routes.js lines 259-271). -/
def errorAck : CallbackResponse :=
  ⟨200, 0, "Callback received with processing errors"⟩

/-- Handler `router.post("/callback")` (mpesa.routes.js lines 130-272), with explicit
storage-fault flags: returns the updated table and the HTTP response. Control
flow mirrors the source: structural validation first, then the exact-match
select; on zero exact rows the wildcard select; on zero wildcard rows a
"payment not found" acknowledgment; otherwise `wildcardPayments[0].id` is
updated by id; on one or more exact rows the update is by `mpesa_receipt`.
Every response has HTTP status 200 and `resultCode: 0`. The post-update verify
`SELECT` only logs, so on success it can only fault, not change the result. -/
def callbackHandlerF (db : List Payment) (req : CallbackReq) (f : Faults) :
    List Payment × CallbackResponse :=
  match req with
  | CallbackReq.notObject =>
      (db, ⟨200, 0, "Callback received but invalid format"⟩)
  | CallbackReq.noStk =>
      (db, ⟨200, 0, "Callback received but missing stkCallback"⟩)
  | CallbackReq.stk cb =>
      let status := statusOf cb.ResultCode
      if f.exactSelect then (db, errorAck) else
      let existingPayments := exactMatches db cb.CheckoutRequestID
      if existingPayments.length = 0 then
        if f.wildcardSelect then (db, errorAck) else
        match wildcardMatches db cb.CheckoutRequestID with
        | [] => (db, ⟨200, 0, "Callback received but payment not found"⟩)
        | first :: _ =>
            if f.update then (db, errorAck) else
            let db2 := updateById db first.id status
            if f.verifySelect then (db2, errorAck) else
            (db2, ⟨200, 0, "Callback processed successfully"⟩)
      else
        if f.update then (db, errorAck) else
        let db2 := updateByReceipt db cb.CheckoutRequestID status
        if f.verifySelect then (db2, errorAck) else
        (db2, ⟨200, 0, "Callback processed successfully"⟩)

/-- The callback handler on a fault-free store. -/
def callbackHandler (db : List Payment) (req : CallbackReq) :
    List Payment × CallbackResponse :=
  callbackHandlerF db req noFaults

/-- The table after one fault-free delivery of `req`. -/
def callbackApply (db : List Payment) (req : CallbackReq) : List Payment :=
  (callbackHandler db req).1

/-- The table after `n` successive fault-free deliveries of the same `req`. -/
def callbackIterate : Nat → List Payment → CallbackReq → List Payment
  | 0, db, _ => db
  | n + 1, db, req => callbackIterate n (callbackApply db req) req

/-- The JSON response of `GET /payment-status/:checkoutRequestId`. -/
inductive StatusResponse
  | found (status : PStatus) (payment_id : Nat) (created_at : Nat) (updated_at : Nat)
  | notFound
deriving DecidableEq, Repr

/-- Handler `router.get("/payment-status/:checkoutRequestId")` (mpesa.routes.js lines
300-356): exact match first; if it returns zero rows, the substring match; if
that also returns zero rows, 404; otherwise the fields of row `[0]` of
whichever result set was used. -/
def paymentStatusHandler (db : List Payment) (checkoutRequestId : String) :
    StatusResponse :=
  match exactMatches db checkoutRequestId with
  | [] =>
      match wildcardMatches db checkoutRequestId with
      | [] => StatusResponse.notFound
      | first :: _ =>
          StatusResponse.found first.status first.id first.created_at first.updated_at
  | first :: _ =>
      StatusResponse.found first.status first.id first.created_at first.updated_at

/-- Pattern `^254[0-9]{9}$` (mpesa.routes.js line 25): the characters are `2`, `5`,
`4` followed by exactly nine digits. -/
def phoneMatches (s : String) : Bool :=
  match s.data with
  | '2' :: '5' :: '4' :: rest => rest.length = 9 && rest.all Char.isDigit
  | _ => false

/-- The `amount` field of an initiation request body: a JSON number, a present
but non-numeric value, or absent. A numeric string is modelled as `num` since
express-validator's `isNumeric` accepts it. -/
inductive AmountVal
  | num (n : Int)
  | nonNumeric
  | absent
deriving DecidableEq, Repr

/-- The body of a `POST /stkpush` request. -/
structure StkRequest where
  phoneNumber : Option String
  amount : AmountVal
deriving DecidableEq, Repr

/-- The `body("phoneNumber")` validator chain: `notEmpty` then
`matches(/^254[0-9]{9}$/)`; every failing validator appends its message. -/
def phoneFieldErrors : Option String → List String
  | none => ["Phone number is required", "Phone number must be in format 254XXXXXXXXX"]
  | some s =>
      (if s = "" then ["Phone number is required"] else []) ++
      (if phoneMatches s then [] else ["Phone number must be in format 254XXXXXXXXX"])

/-- The `body("amount")` validator chain: `notEmpty`, `isNumeric`,
`isFloat({ min: 1 })`; every failing validator appends its message. -/
def amountFieldErrors : AmountVal → List String
  | AmountVal.absent =>
      ["Amount is required", "Amount must be a number", "Amount must be at least 1"]
  | AmountVal.nonNumeric =>
      ["Amount must be a number", "Amount must be at least 1"]
  | AmountVal.num n =>
      if 1 ≤ n then [] else ["Amount must be at least 1"]

/-- Validator `validateStkPush` (mpesa.routes.js lines 21-34): the collected validation
errors of both fields, as surfaced by `validationResult(req)`. -/
def validateStkPush (r : StkRequest) : List String :=
  phoneFieldErrors r.phoneNumber ++ amountFieldErrors r.amount

/-- The claim's validity condition on the phone number: present and matching
the country-coded format `254` followed by 9 digits. -/
def phoneOk : Option String → Bool
  | none => false
  | some s => phoneMatches s

/-- The claim's validity condition on the amount: a numeric value of at least 1. -/
def amountOk : AmountVal → Bool
  | AmountVal.num n => 1 ≤ n
  | _ => false

/-- Environment of the M-Pesa integration: the configured client credentials
(`none` models a missing or empty environment variable), the outcome of the
token endpoint call (`none` models a thrown request error or a response with no
`access_token`), and the outcome of the STK push gateway call (`some cid` is a
success carrying `CheckoutRequestID`, `none` a thrown request error). -/
structure MpesaEnv where
  consumerKey : Option String
  consumerSecret : Option String
  tokenResponse : Option String
  gatewayResponse : Option String
deriving DecidableEq, Repr

/-- Function `getAccessToken` (src/utils/MPESA/getAccessToken.js): returns `null` when
either credential is missing, when the token request throws, or when the
response carries no `access_token`; otherwise the token. It never throws. -/
def getAccessToken (env : MpesaEnv) : Option String :=
  if env.consumerKey = none ∨ env.consumerSecret = none then none
  else env.tokenResponse

/-- The response of `POST /stkpush`. -/
inductive StkResponse
  | badRequest (errors : List String)
  | tokenFailure
  | gatewayFailure
  | ok (checkoutRequestId : String)
deriving DecidableEq, Repr

/-- The HTTP status code attached to each `StkResponse` by the handler:
400 for validation errors, 500 for token or gateway failures, 200 on success. -/
def stkRespCode : StkResponse → Nat
  | StkResponse.badRequest _ => 400
  | StkResponse.tokenFailure => 500
  | StkResponse.gatewayFailure => 500
  | StkResponse.ok _ => 200

/-- Observable side effects of one `POST /stkpush` request: whether the token
endpoint was called, whether the gateway initiation call was sent, and the
rows inserted into `payments`. -/
structure StkEffects where
  tokenCalled : Bool
  gatewayCalled : Bool
  inserted : List Payment
deriving DecidableEq, Repr

/-- Handler `router.post("/stkpush")` (mpesa.routes.js lines 37-127): validation
errors short-circuit to 400; a null access token short-circuits to 500 before
the gateway call; a thrown gateway call is caught as 500 before the insert; on
gateway success one `Pending` row with `mpesa_receipt = CheckoutRequestID` is
inserted. `newId` and `now` stand for the auto-increment key and the insert
timestamp the database assigns. -/
def stkpushHandler (env : MpesaEnv) (db : List Payment) (r : StkRequest)
    (userId newId now : Nat) : List Payment × StkResponse × StkEffects :=
  if validateStkPush r = [] then
    match getAccessToken env with
    | none => (db, StkResponse.tokenFailure, ⟨true, false, []⟩)
    | some _ =>
        match env.gatewayResponse with
        | none => (db, StkResponse.gatewayFailure, ⟨true, true, []⟩)
        | some checkoutRequestId =>
            let p : Payment :=
              { id := newId
                mpesa_receipt := checkoutRequestId
                phone_number := r.phoneNumber.getD ""
                amount := match r.amount with | AmountVal.num n => n | _ => 0
                status := PStatus.Pending
                user_id := userId
                created_at := now
                updated_at := now }
            (db ++ [p], StkResponse.ok checkoutRequestId, ⟨true, true, [p]⟩)
  else
    (db, StkResponse.badRequest (validateStkPush r), ⟨false, false, []⟩)

/-- Row-wise agreement on every column except `status`: what the callback
handler's `UPDATE ... SET status = ?` statements can never change. -/
def sameExceptStatus (p q : Payment) : Prop :=
  q.id = p.id ∧ q.mpesa_receipt = p.mpesa_receipt ∧ q.phone_number = p.phone_number ∧
  q.amount = p.amount ∧ q.user_id = p.user_id ∧ q.failure_reason = p.failure_reason ∧
  q.transaction_date = p.transaction_date ∧ q.created_at = p.created_at ∧
  q.updated_at = p.updated_at

/-- The number of rows at which two table states of equal length disagree. -/
def changedRows (db db' : List Payment) : Nat :=
  (db.zip db').countP (fun pq => decide (pq.1 ≠ pq.2))

/-! ### Concrete rows and callbacks used to instantiate theorems -/

/-- A pending payment with receipt `ws_CO_1`. -/
def exPend : Payment :=
  { id := 1, mpesa_receipt := "ws_CO_1", phone_number := "254712345678",
    amount := 50, status := PStatus.Pending, user_id := 7,
    created_at := 10, updated_at := 10 }

/-- A payment already settled as `Completed`, with receipt `ws_CO_1`. -/
def exCompleted : Payment := { exPend with id := 2, status := PStatus.Completed }

/-- A payment already settled as `Failed`, with receipt `ws_CO_1`. -/
def exFailed : Payment := { exPend with id := 3, status := PStatus.Failed }

/-- A payment whose receipt strictly contains `ws_CO_1`. -/
def exContain : Payment :=
  { exPend with id := 4, mpesa_receipt := "Xws_CO_1Y", created_at := 99, updated_at := 99 }

/-- A failing callback (`ResultCode` the number 1) for `ws_CO_1`. -/
def exCbFail : StkCallback :=
  { CheckoutRequestID := "ws_CO_1", ResultCode := some (JVal.jnum 1),
    ResultDesc := "Insufficient funds" }

/-- A successful callback (`ResultCode` the number 0) for `ws_CO_1`, carrying
the metadata items of the spec's scenario. -/
def exCbOk : StkCallback :=
  { CheckoutRequestID := "ws_CO_1", ResultCode := some (JVal.jnum 0),
    ResultDesc := "The service request is processed successfully.",
    CallbackMetadata := some [("MpesaReceiptNumber", JVal.jstr "R123")] }

/-- A callback for `ws_CO_1` whose `ResultCode` is the string `"0"`. -/
def exCbStr0 : StkCallback :=
  { CheckoutRequestID := "ws_CO_1", ResultCode := some (JVal.jstr "0"),
    ResultDesc := "ok" }

/-- The older of two fallback candidates for checkout id `X`. -/
def exOld : Payment :=
  { id := 1, mpesa_receipt := "AAXAA", phone_number := "254700000001",
    amount := 5, status := PStatus.Pending, user_id := 1,
    created_at := 10, updated_at := 10 }

/-- The more recently created of two fallback candidates for checkout id `X`. -/
def exNew : Payment :=
  { id := 2, mpesa_receipt := "BBXBB", phone_number := "254700000002",
    amount := 6, status := PStatus.Pending, user_id := 2,
    created_at := 20, updated_at := 20 }

/-- A successful callback whose checkout id `X` matches no receipt exactly but
is contained in the receipts of `exOld` and `exNew`. -/
def exCbX : StkCallback :=
  { CheckoutRequestID := "X", ResultCode := some (JVal.jnum 0), ResultDesc := "ok" }

/-- Two pending rows sharing the receipt `ws_CO_9`. -/
def exDup1 : Payment :=
  { id := 8, mpesa_receipt := "ws_CO_9", phone_number := "254700000008",
    amount := 8, status := PStatus.Pending, user_id := 8,
    created_at := 30, updated_at := 30 }

/-- Second pending row sharing the receipt `ws_CO_9`. -/
def exDup2 : Payment := { exDup1 with id := 9 }

/-- A successful callback for the duplicated receipt `ws_CO_9`. -/
def exCbDup : StkCallback :=
  { CheckoutRequestID := "ws_CO_9", ResultCode := some (JVal.jnum 0), ResultDesc := "ok" }

/-! ### Helper lemmas -/

/-- The callback handler writes only terminal statuses. -/
theorem statusOf_ne_pending (rc : Option JVal) : statusOf rc ≠ PStatus.Pending := by
  unfold statusOf
  split <;> simp

/-- Updating statuses by receipt leaves receipts unchanged, so the exact-match
rows of the updated table are the updated exact-match rows. -/
theorem exactMatches_updateByReceipt (db : List Payment) (cid : String) (s : PStatus) :
    exactMatches (updateByReceipt db cid s) cid
      = (exactMatches db cid).map (fun p => { p with status := s }) := by
  unfold exactMatches updateByReceipt
  rw [List.filter_map]
  have hf : ∀ p : Payment,
      ((fun q : Payment => decide (q.mpesa_receipt = cid)) ∘
        (fun q : Payment => if q.mpesa_receipt = cid then { q with status := s } else q)) p
      = decide (p.mpesa_receipt = cid) := by
    intro p
    by_cases h : p.mpesa_receipt = cid <;> simp [h]
  rw [List.filter_congr (fun p _ => hf p)]
  apply List.map_congr_left
  intro p hp
  have : p.mpesa_receipt = cid := of_decide_eq_true (List.mem_filter.mp hp).2
  simp [this]

/-- Re-running the exact-match update is a no-op. -/
theorem updateByReceipt_idem (db : List Payment) (cid : String) (s : PStatus) :
    updateByReceipt (updateByReceipt db cid s) cid s = updateByReceipt db cid s := by
  unfold updateByReceipt
  rw [List.map_map]
  apply List.map_congr_left
  intro p _
  by_cases h : p.mpesa_receipt = cid <;> simp [h]

/-- Updating statuses by id leaves receipts unchanged, so exact matching
commutes with the update. -/
theorem exactMatches_updateById (db : List Payment) (i : Nat) (s : PStatus) (cid : String) :
    exactMatches (updateById db i s) cid
      = (exactMatches db cid).map (fun p => if p.id = i then { p with status := s } else p) := by
  unfold exactMatches updateById
  rw [List.filter_map]
  have hf : ∀ p : Payment,
      ((fun q : Payment => decide (q.mpesa_receipt = cid)) ∘
        (fun q : Payment => if q.id = i then { q with status := s } else q)) p
      = decide (p.mpesa_receipt = cid) := by
    intro p
    by_cases h : p.id = i <;> simp [h]
  rw [List.filter_congr (fun p _ => hf p)]

/-- Updating statuses by id leaves receipts unchanged, so wildcard matching
commutes with the update. -/
theorem wildcardMatches_updateById (db : List Payment) (i : Nat) (s : PStatus) (cid : String) :
    wildcardMatches (updateById db i s) cid
      = (wildcardMatches db cid).map (fun p => if p.id = i then { p with status := s } else p) := by
  unfold wildcardMatches updateById
  rw [List.filter_map]
  have hf : ∀ p : Payment,
      ((fun q : Payment => likeContains q.mpesa_receipt cid) ∘
        (fun q : Payment => if q.id = i then { q with status := s } else q)) p
      = likeContains p.mpesa_receipt cid := by
    intro p
    by_cases h : p.id = i <;> simp [h]
  rw [List.filter_congr (fun p _ => hf p)]

/-- Re-running the update-by-id is a no-op. -/
theorem updateById_idem (db : List Payment) (i : Nat) (s : PStatus) :
    updateById (updateById db i s) i s = updateById db i s := by
  unfold updateById
  rw [List.map_map]
  apply List.map_congr_left
  intro p _
  by_cases h : p.id = i <;> simp [h]

/-- When the exact-match select returns at least one row, the handler runs the
update keyed on `mpesa_receipt`. -/
theorem callbackApply_exact (db : List Payment) (cb : StkCallback)
    (h : exactMatches db cb.CheckoutRequestID ≠ []) :
    (callbackHandler db (CallbackReq.stk cb)).1
      = updateByReceipt db cb.CheckoutRequestID (statusOf cb.ResultCode) := by
  simp [callbackHandler, callbackHandlerF, noFaults, List.length_eq_zero, h]

/-- When the exact select is empty and the wildcard select returns rows, the
handler updates the row whose id is that of the first wildcard row. -/
theorem callbackApply_fallback (db : List Payment) (cb : StkCallback)
    (first : Payment) (rest : List Payment)
    (hx : exactMatches db cb.CheckoutRequestID = [])
    (hw : wildcardMatches db cb.CheckoutRequestID = first :: rest) :
    (callbackHandler db (CallbackReq.stk cb)).1
      = updateById db first.id (statusOf cb.ResultCode) := by
  simp [callbackHandler, callbackHandlerF, noFaults, hx, hw]

/-- When both selects come back empty, the table is left untouched. -/
theorem callbackApply_notFound (db : List Payment) (cb : StkCallback)
    (hx : exactMatches db cb.CheckoutRequestID = [])
    (hw : wildcardMatches db cb.CheckoutRequestID = []) :
    (callbackHandler db (CallbackReq.stk cb)).1 = db := by
  simp [callbackHandler, callbackHandlerF, noFaults, hx, hw]

/-- Delivering the same callback to the table it already produced changes
nothing: the second delivery takes the same branch and rewrites the same
statuses. -/
theorem callbackApply_idem (db : List Payment) (req : CallbackReq) :
    callbackApply (callbackApply db req) req = callbackApply db req := by
  cases req with
  | notObject => rfl
  | noStk => rfl
  | stk cb =>
      by_cases hx : exactMatches db cb.CheckoutRequestID = []
      · cases hw : wildcardMatches db cb.CheckoutRequestID with
        | nil =>
            unfold callbackApply
            rw [callbackApply_notFound db cb hx hw, callbackApply_notFound db cb hx hw]
        | cons first rest =>
            unfold callbackApply
            rw [callbackApply_fallback db cb first rest hx hw]
            have hx' : exactMatches
                (updateById db first.id (statusOf cb.ResultCode)) cb.CheckoutRequestID = [] := by
              rw [exactMatches_updateById, hx]
              rfl
            have hw' : wildcardMatches
                (updateById db first.id (statusOf cb.ResultCode)) cb.CheckoutRequestID
                = { first with status := statusOf cb.ResultCode }
                  :: rest.map (fun p =>
                      if p.id = first.id then { p with status := statusOf cb.ResultCode } else p) := by
              rw [wildcardMatches_updateById, hw]
              simp
            rw [callbackApply_fallback _ cb _ _ hx' hw']
            exact updateById_idem db first.id (statusOf cb.ResultCode)
      · unfold callbackApply
        rw [callbackApply_exact db cb hx]
        have hx' : exactMatches
            (updateByReceipt db cb.CheckoutRequestID (statusOf cb.ResultCode))
            cb.CheckoutRequestID ≠ [] := by
          rw [exactMatches_updateByReceipt]
          simpa using hx
        rw [callbackApply_exact _ cb hx']
        exact updateByReceipt_idem db cb.CheckoutRequestID (statusOf cb.ResultCode)

/-- Iterated delivery: `n + 1` deliveries of the same callback produce the table of a single
delivery. -/
theorem callbackIterate_succ_eq (req : CallbackReq) :
    ∀ (n : Nat) (db : List Payment), callbackIterate (n + 1) db req = callbackApply db req
  | 0, _ => rfl
  | n + 1, db => by
      show callbackIterate (n + 1) (callbackApply db req) req = _
      rw [callbackIterate_succ_eq req n (callbackApply db req), callbackApply_idem]

/-- A status update that either keeps a row or rewrites its status to a
non-`Pending` value cannot produce a `Pending` row that was not already in the
table. -/
theorem mem_of_status_update {f : Payment → Payment} {db : List Payment} {p : Payment}
    {s : PStatus} (hf : ∀ q, f q = q ∨ f q = { q with status := s })
    (hs : s ≠ PStatus.Pending) (hp : p ∈ db.map f)
    (hpend : p.status = PStatus.Pending) : p ∈ db := by
  obtain ⟨q, hq, hfq⟩ := List.mem_map.mp hp
  cases hf q with
  | inl h => rw [h] at hfq; exact hfq ▸ hq
  | inr h =>
      exfalso
      apply hs
      rw [h] at hfq
      rw [← hfq] at hpend
      simpa using hpend

/-! ### Claims -/

/-- C1, counterexample: the status-transition update is NOT guarded on the
record's current status being `Pending`. A record already settled as
`Completed` and exactly matching the callback's checkout id is still updated:
the handler rewrites its status to `Failed`. -/
theorem c1_no_pending_guard_counterexample :
    exCompleted.status = PStatus.Completed
    ∧ (callbackHandler [exCompleted] (CallbackReq.stk exCbFail)).1
        = [{ exCompleted with status := PStatus.Failed }] := by decide

/-- C1, amended: the `UPDATE` carries no compare-and-swap on `Pending`; it is
re-executed on every delivery. Still, delivering the same callback `N ≥ 1`
times leaves the table — and hence the matched record's final status — exactly
as after one delivery, because every delivery takes the same branch and writes
the same status value. -/
theorem c1_redelivery_same_result (db : List Payment) (req : CallbackReq) (n : Nat)
    (h : 1 ≤ n) : callbackIterate n db req = callbackIterate 1 db req := by
  obtain ⟨m, rfl⟩ : ∃ m, n = m + 1 := ⟨n - 1, by omega⟩
  rw [callbackIterate_succ_eq]
  rfl

/-- C1 witness: three deliveries of the success callback for `ws_CO_1` give
the table of a single delivery. -/
theorem c1_redelivery_same_result_witness :
    1 ≤ 3
    ∧ callbackIterate 3 [exPend] (CallbackReq.stk exCbOk)
        = callbackIterate 1 [exPend] (CallbackReq.stk exCbOk) :=
  ⟨by decide, c1_redelivery_same_result [exPend] (CallbackReq.stk exCbOk) 3 (by decide)⟩

/-- C2, counterexample: a terminal status is not sticky. A record already
settled as `Failed` is flipped to `Completed` by a later successful callback
delivery for its checkout id. -/
theorem c2_terminal_flip_counterexample :
    exFailed.status = PStatus.Failed
    ∧ (callbackHandler [exFailed] (CallbackReq.stk exCbOk)).1
        = [{ exFailed with status := PStatus.Completed }] := by decide

/-- C2, amended: a later callback CAN overwrite a terminal status (it can flip
`Completed` and `Failed`, see the counterexample), but the callback handler
only ever writes terminal statuses: any row that is `Pending` after a callback
was already present, unchanged, before it — status never reverts to `Pending`. -/
theorem c2_never_back_to_pending (db : List Payment) (req : CallbackReq) (p : Payment)
    (hp : p ∈ (callbackHandler db req).1) (hs : p.status = PStatus.Pending) :
    p ∈ db := by
  cases req with
  | notObject => exact hp
  | noStk => exact hp
  | stk cb =>
      by_cases hx : exactMatches db cb.CheckoutRequestID = []
      · cases hw : wildcardMatches db cb.CheckoutRequestID with
        | nil => rw [callbackApply_notFound db cb hx hw] at hp; exact hp
        | cons first rest =>
            rw [callbackApply_fallback db cb first rest hx hw] at hp
            refine mem_of_status_update ?_ (statusOf_ne_pending cb.ResultCode) hp hs
            intro q
            by_cases h : q.id = first.id
            · exact Or.inr (if_pos h)
            · exact Or.inl (if_neg h)
      · rw [callbackApply_exact db cb hx] at hp
        refine mem_of_status_update ?_ (statusOf_ne_pending cb.ResultCode) hp hs
        intro q
        by_cases h : q.mpesa_receipt = cb.CheckoutRequestID
        · exact Or.inr (if_pos h)
        · exact Or.inl (if_neg h)

/-- C2 witness: a pending row not matched by the delivered callback is still
present, still `Pending`, and indeed was in the table before. -/
theorem c2_never_back_to_pending_witness :
    exOld ∈ (callbackHandler [exOld] (CallbackReq.stk exCbDup)).1
    ∧ exOld.status = PStatus.Pending
    ∧ exOld ∈ [exOld] :=
  ⟨by decide, by decide,
    c2_never_back_to_pending [exOld] (CallbackReq.stk exCbDup) exOld (by decide) (by decide)⟩

/-- C4: exact-before-fallback. When some row's receipt exactly equals the
callback's checkout id, the handler's result is the exact-keyed update — the
wildcard search is never consulted — and every row without an exact receipt
match, containment match or not, is left in the table unchanged. -/
theorem c4_exact_before_fallback (db : List Payment) (cb : StkCallback)
    (h : exactMatches db cb.CheckoutRequestID ≠ []) :
    (callbackHandler db (CallbackReq.stk cb)).1
      = updateByReceipt db cb.CheckoutRequestID (statusOf cb.ResultCode)
    ∧ ∀ p ∈ db, p.mpesa_receipt ≠ cb.CheckoutRequestID →
        p ∈ (callbackHandler db (CallbackReq.stk cb)).1 := by
  refine ⟨callbackApply_exact db cb h, ?_⟩
  intro p hp hne
  rw [callbackApply_exact db cb h]
  unfold updateByReceipt
  have : (if p.mpesa_receipt = cb.CheckoutRequestID
      then { p with status := statusOf cb.ResultCode } else p) = p := if_neg hne
  exact this ▸ List.mem_map_of_mem _ hp

/-- C4 witness: with an exactly matching pending row and a second row whose
receipt merely contains the checkout id, the handler updates by receipt and
the containment-only row survives unchanged. -/
theorem c4_exact_before_fallback_witness :
    exactMatches [exPend, exContain] "ws_CO_1" ≠ []
    ∧ ((callbackHandler [exPend, exContain] (CallbackReq.stk exCbOk)).1
        = updateByReceipt [exPend, exContain] "ws_CO_1" (statusOf exCbOk.ResultCode)
      ∧ ∀ p ∈ [exPend, exContain], p.mpesa_receipt ≠ "ws_CO_1" →
          p ∈ (callbackHandler [exPend, exContain] (CallbackReq.stk exCbOk)).1) :=
  ⟨by decide, c4_exact_before_fallback [exPend, exContain] exCbOk (by decide)⟩

/-- C5: every request to the callback endpoint — malformed body, missing
`Body.stkCallback`, unknown checkout id, or a storage fault at any of the four
`conn.execute` calls — is answered with HTTP 200 and `resultCode: 0`. -/
theorem c5_always_acknowledges (db : List Payment) (req : CallbackReq) (f : Faults) :
    ((callbackHandlerF db req f).2).httpStatus = 200
    ∧ ((callbackHandlerF db req f).2).resultCode = 0 := by
  cases req with
  | notObject => exact ⟨rfl, rfl⟩
  | noStk => exact ⟨rfl, rfl⟩
  | stk cb =>
      unfold callbackHandlerF
      dsimp only
      repeat' split
      all_goals exact ⟨rfl, rfl⟩

/-- C10: the recorded status is `Completed` exactly when `ResultCode` is the
number `0` under JavaScript strict equality; the string `"0"`, an absent
field, or any other value records `Failed`. For any row exactly matching the
callback, the row rewritten with that status is in the resulting table. -/
theorem c10_strict_zero_completes (db : List Payment) (cb : StkCallback) (p : Payment)
    (hp : p ∈ db) (hr : p.mpesa_receipt = cb.CheckoutRequestID) :
    { p with status := statusOf cb.ResultCode } ∈ (callbackHandler db (CallbackReq.stk cb)).1
    ∧ (statusOf cb.ResultCode = PStatus.Completed ↔ cb.ResultCode = some (JVal.jnum 0)) := by
  have hne : exactMatches db cb.CheckoutRequestID ≠ [] :=
    List.ne_nil_of_mem (List.mem_filter.mpr ⟨hp, by simp [hr]⟩)
  constructor
  · rw [callbackApply_exact db cb hne]
    unfold updateByReceipt
    have : (if p.mpesa_receipt = cb.CheckoutRequestID
        then { p with status := statusOf cb.ResultCode } else p)
        = { p with status := statusOf cb.ResultCode } := if_pos hr
    exact this ▸ List.mem_map_of_mem _ hp
  · unfold statusOf
    split <;> simp_all

/-- C10 witness: a `ResultCode` that is the string `"0"` records `Failed` on
the exactly matching pending row. -/
theorem c10_strict_zero_completes_witness :
    exPend ∈ [exPend]
    ∧ exPend.mpesa_receipt = exCbStr0.CheckoutRequestID
    ∧ ({ exPend with status := statusOf exCbStr0.ResultCode }
          ∈ (callbackHandler [exPend] (CallbackReq.stk exCbStr0)).1
      ∧ (statusOf exCbStr0.ResultCode = PStatus.Completed
          ↔ exCbStr0.ResultCode = some (JVal.jnum 0))) :=
  ⟨by decide, by decide,
    c10_strict_zero_completes [exPend] exCbStr0 exPend (by decide) (by decide)⟩

/-- C3, counterexample: the fallback queries have no `ORDER BY`, so with two
containment candidates the handlers pick row `[0]` of the table-ordered
result — the EARLIER-created one. Here `exNew` is more recently created, yet
the callback updates `exOld` and the status query reports `exOld`. -/
theorem c3_most_recent_counterexample :
    exactMatches [exOld, exNew] "X" = []
    ∧ wildcardMatches [exOld, exNew] "X" = [exOld, exNew]
    ∧ exOld.created_at < exNew.created_at
    ∧ (callbackHandler [exOld, exNew] (CallbackReq.stk exCbX)).1
        = [{ exOld with status := PStatus.Completed }, exNew]
    ∧ paymentStatusHandler [exOld, exNew] "X"
        = StatusResponse.found exOld.status exOld.id exOld.created_at exOld.updated_at := by
  decide

/-- C3, amended: when the exact lookup finds nothing and the fallback
containment search yields one or more candidates, both handlers select the
FIRST row of the result set, i.e. the earliest-created candidate in table
order (the fallback queries carry no `ORDER BY`), not the most recent one. -/
theorem c3_fallback_selects_first_row (db : List Payment) (cb : StkCallback)
    (p : Payment) (ps : List Payment)
    (hx : exactMatches db cb.CheckoutRequestID = [])
    (hw : wildcardMatches db cb.CheckoutRequestID = p :: ps) :
    (callbackHandler db (CallbackReq.stk cb)).1
      = updateById db p.id (statusOf cb.ResultCode)
    ∧ paymentStatusHandler db cb.CheckoutRequestID
      = StatusResponse.found p.status p.id p.created_at p.updated_at := by
  refine ⟨callbackApply_fallback db cb p ps hx hw, ?_⟩
  unfold paymentStatusHandler
  rw [hx, hw]

/-- C3 witness: with the two candidates `exOld` and `exNew`, the selected row
is `exOld`, the head of the fallback result. -/
theorem c3_fallback_selects_first_row_witness :
    exactMatches [exOld, exNew] "X" = []
    ∧ wildcardMatches [exOld, exNew] "X" = exOld :: [exNew]
    ∧ ((callbackHandler [exOld, exNew] (CallbackReq.stk exCbX)).1
        = updateById [exOld, exNew] exOld.id (statusOf exCbX.ResultCode)
      ∧ paymentStatusHandler [exOld, exNew] "X"
        = StatusResponse.found exOld.status exOld.id exOld.created_at exOld.updated_at) :=
  ⟨by decide, by decide,
    c3_fallback_selects_first_row [exOld, exNew] exCbX exOld [exNew] (by decide) (by decide)⟩

/-- If both validator chains report no error, the phone number matched the
`254` format and the amount was a number of at least 1. -/
theorem valid_of_validateStkPush_eq_nil (r : StkRequest) (h : validateStkPush r = []) :
    phoneOk r.phoneNumber = true ∧ amountOk r.amount = true := by
  unfold validateStkPush at h
  rw [List.append_eq_nil] at h
  obtain ⟨h1, h2⟩ := h
  constructor
  · match hph : r.phoneNumber with
    | none => rw [hph] at h1; simp [phoneFieldErrors] at h1
    | some s =>
        rw [hph] at h1
        unfold phoneFieldErrors at h1
        rw [List.append_eq_nil] at h1
        by_cases hm : phoneMatches s
        · simp [phoneOk, hm]
        · rw [if_neg hm] at h1
          exact absurd h1.2 (by simp)
  · match ha : r.amount with
    | AmountVal.absent => rw [ha] at h2; simp [amountFieldErrors] at h2
    | AmountVal.nonNumeric => rw [ha] at h2; simp [amountFieldErrors] at h2
    | AmountVal.num n =>
        rw [ha] at h2
        simp only [amountFieldErrors] at h2
        by_cases hn : (1 : Int) ≤ n
        · simp [amountOk, hn]
        · rw [if_neg hn] at h2
          exact absurd h2 (by simp)

/-- C6: an initiation request whose phone number does not match
`254` + 9 digits, or whose amount is missing, non-numeric, or below 1, is
answered 400 with the field-level validation errors; the token endpoint is not
called, the gateway is not called, and no row is inserted. -/
theorem c6_validation_no_side_effects (env : MpesaEnv) (db : List Payment)
    (r : StkRequest) (userId newId now : Nat)
    (h : ¬(phoneOk r.phoneNumber = true ∧ amountOk r.amount = true)) :
    stkpushHandler env db r userId newId now
      = (db, StkResponse.badRequest (validateStkPush r), ⟨false, false, []⟩)
    ∧ validateStkPush r ≠ []
    ∧ stkRespCode (StkResponse.badRequest (validateStkPush r)) = 400 := by
  have hne : validateStkPush r ≠ [] := fun hnil => h (valid_of_validateStkPush_eq_nil r hnil)
  refine ⟨?_, hne, rfl⟩
  unfold stkpushHandler
  rw [if_neg hne]

/-- C6 witness: a malformed phone number together with a zero amount yields the
400 response and no side effects. -/
theorem c6_validation_no_side_effects_witness :
    (¬(phoneOk (some "0712345678") = true ∧ amountOk (AmountVal.num 0) = true))
    ∧ (stkpushHandler ⟨some "k", some "s", some "t", some "ws_CO_1"⟩ []
          { phoneNumber := some "0712345678", amount := AmountVal.num 0 } 7 1 5
        = ([], StkResponse.badRequest
            (validateStkPush { phoneNumber := some "0712345678", amount := AmountVal.num 0 }),
           ⟨false, false, []⟩)
      ∧ validateStkPush { phoneNumber := some "0712345678", amount := AmountVal.num 0 } ≠ []
      ∧ stkRespCode (StkResponse.badRequest
          (validateStkPush { phoneNumber := some "0712345678", amount := AmountVal.num 0 })) = 400) :=
  ⟨by decide,
    c6_validation_no_side_effects ⟨some "k", some "s", some "t", some "ws_CO_1"⟩ []
      { phoneNumber := some "0712345678", amount := AmountVal.num 0 } 7 1 5 (by decide)⟩

/-- C7: when `getAccessToken` yields no credential — missing client
credentials, a thrown token request, or a token response without an
`access_token` — a valid initiation request fails with a 500, the gateway
initiation call is never sent, and no row is inserted. -/
theorem c7_token_failure_no_side_effects (env : MpesaEnv) (db : List Payment)
    (r : StkRequest) (userId newId now : Nat)
    (hv : validateStkPush r = []) (ht : getAccessToken env = none) :
    stkpushHandler env db r userId newId now
      = (db, StkResponse.tokenFailure, ⟨true, false, []⟩)
    ∧ stkRespCode StkResponse.tokenFailure = 500 := by
  refine ⟨?_, rfl⟩
  unfold stkpushHandler
  rw [if_pos hv, ht]

/-- C7 witness: a missing consumer key makes a well-formed request fail with
500 before the gateway call, leaving the table empty. -/
theorem c7_token_failure_no_side_effects_witness :
    validateStkPush { phoneNumber := some "254712345678", amount := AmountVal.num 50 } = []
    ∧ getAccessToken ⟨none, some "s", some "t", some "ws_CO_1"⟩ = none
    ∧ (stkpushHandler ⟨none, some "s", some "t", some "ws_CO_1"⟩ []
          { phoneNumber := some "254712345678", amount := AmountVal.num 50 } 7 1 5
        = ([], StkResponse.tokenFailure, ⟨true, false, []⟩)
      ∧ stkRespCode StkResponse.tokenFailure = 500) :=
  ⟨by decide, by decide,
    c7_token_failure_no_side_effects ⟨none, some "s", some "t", some "ws_CO_1"⟩ []
      { phoneNumber := some "254712345678", amount := AmountVal.num 50 } 7 1 5
      (by decide) (by decide)⟩

/-- C8, counterexample: on a failed callback the matched record's
`failure_reason` is NOT set to `ResultDesc` — the update writes only the
status, so the field stays `none` while the claim requires
`some "Insufficient funds"`. -/
theorem c8_failure_reason_not_applied_counterexample :
    exCbFail.ResultCode ≠ some (JVal.jnum 0)
    ∧ exCbFail.ResultDesc = "Insufficient funds"
    ∧ (callbackHandler [exPend] (CallbackReq.stk exCbFail)).1
        = [{ exPend with status := PStatus.Failed }]
    ∧ ({ exPend with status := PStatus.Failed }).failure_reason = none := by
  decide

/-- C8, amended: the handler destructures `ResultDesc` and `CallbackMetadata`
from the envelope but applies none of them: every row of the table after any
callback agrees with its pre-state row on every column except `status` — in
particular `failure_reason`, `transaction_date`, amount and phone are never
written by the callback path. -/
theorem c8_callback_writes_only_status (db : List Payment) (req : CallbackReq) :
    List.Forall₂ sameExceptStatus db (callbackHandler db req).1 := by
  have hrefl : ∀ p ∈ db, sameExceptStatus p p :=
    fun p _ => ⟨rfl, rfl, rfl, rfl, rfl, rfl, rfl, rfl, rfl⟩
  have hmap : ∀ (f : Payment → Payment),
      (∀ q, f q = q ∨ ∃ s, f q = { q with status := s }) →
      List.Forall₂ sameExceptStatus db (db.map f) := by
    intro f hf
    rw [List.forall₂_map_right_iff]
    refine List.forall₂_same.mpr (fun p _ => ?_)
    cases hf p with
    | inl h => rw [h]; exact ⟨rfl, rfl, rfl, rfl, rfl, rfl, rfl, rfl, rfl⟩
    | inr h =>
        obtain ⟨s, hs⟩ := h
        rw [hs]
        exact ⟨rfl, rfl, rfl, rfl, rfl, rfl, rfl, rfl, rfl⟩
  cases req with
  | notObject => exact List.forall₂_same.mpr hrefl
  | noStk => exact List.forall₂_same.mpr hrefl
  | stk cb =>
      by_cases hx : exactMatches db cb.CheckoutRequestID = []
      · cases hw : wildcardMatches db cb.CheckoutRequestID with
        | nil =>
            rw [callbackApply_notFound db cb hx hw]
            exact List.forall₂_same.mpr hrefl
        | cons first rest =>
            rw [callbackApply_fallback db cb first rest hx hw]
            refine hmap _ (fun q => ?_)
            by_cases h : q.id = first.id
            · exact Or.inr ⟨statusOf cb.ResultCode, if_pos h⟩
            · exact Or.inl (if_neg h)
      · rw [callbackApply_exact db cb hx]
        refine hmap _ (fun q => ?_)
        by_cases h : q.mpesa_receipt = cb.CheckoutRequestID
        · exact Or.inr ⟨statusOf cb.ResultCode, if_pos h⟩
        · exact Or.inl (if_neg h)

/-- A table never differs from itself. -/
theorem changedRows_self (db : List Payment) : changedRows db db = 0 := by
  unfold changedRows
  induction db with
  | nil => rfl
  | cons a l ih => simpa [List.countP_cons] using ih

/-- A row-wise rewrite changes at most the rows the predicate `P` selects. -/
theorem changedRows_map_le (db : List Payment) (f : Payment → Payment)
    (P : Payment → Bool) (h : ∀ p, P p = false → f p = p) :
    changedRows db (db.map f) ≤ db.countP P := by
  unfold changedRows
  induction db with
  | nil => simp
  | cons a l ih =>
      simp only [List.map_cons, List.zip_cons_cons, List.countP_cons]
      by_cases hP : P a = true
      · simp only [hP, if_true]
        exact Nat.add_le_add ih (by split <;> omega)
      · have hfa : f a = a := h a (by simpa using hP)
        simp only [hfa, hP]
        simpa using ih

/-- When the listed keys are pairwise distinct, at most one row carries any
given key. -/
theorem countP_key_le_one {β : Type} [DecidableEq β] (key : Payment → β) (k : β) :
    ∀ (db : List Payment), (db.map key).Nodup →
      db.countP (fun p => decide (key p = k)) ≤ 1 := by
  intro db hnd
  induction db with
  | nil => simp
  | cons a l ih =>
      rw [List.map_cons, List.nodup_cons] at hnd
      obtain ⟨hna, hnl⟩ := hnd
      rw [List.countP_cons]
      by_cases hk : key a = k
      · have hzero : l.countP (fun p => decide (key p = k)) = 0 := by
          rw [List.countP_eq_zero]
          intro b hb hbk
          exact hna (hk ▸ (of_decide_eq_true hbk) ▸ List.mem_map_of_mem key hb)
        simp [hk, hzero]
      · have := ih hnl
        simp only [hk, decide_eq_true_eq, if_neg hk]
        simpa using this

/-- C9, counterexample: two pending rows share the receipt `ws_CO_9`; the
exact-match branch updates by `mpesa_receipt`, so one callback changes BOTH
rows — the other record with the same correlation id is not left unchanged. -/
theorem c9_multirow_update_counterexample :
    exDup1.mpesa_receipt = exDup2.mpesa_receipt
    ∧ exDup1.id ≠ exDup2.id
    ∧ exDup1.status = PStatus.Pending ∧ exDup2.status = PStatus.Pending
    ∧ (callbackHandler [exDup1, exDup2] (CallbackReq.stk exCbDup)).1
        = [{ exDup1 with status := PStatus.Completed },
           { exDup2 with status := PStatus.Completed }] := by
  decide

/-- C9, amended: the reconciliation step changes at most one row only when the
stored ids and correlation ids are duplicate-free. Under those uniqueness
hypotheses (primary keys, gateway-unique receipts) any callback delivery
changes at most one row of the table; without receipt uniqueness the
exact-match branch updates every row carrying the callback's checkout id, see
the counterexample. -/
theorem c9_at_most_one_row_changed (db : List Payment) (req : CallbackReq)
    (hid : (db.map Payment.id).Nodup)
    (hrec : (db.map Payment.mpesa_receipt).Nodup) :
    changedRows db (callbackHandler db req).1 ≤ 1 := by
  cases req with
  | notObject =>
      show changedRows db db ≤ 1
      rw [changedRows_self]
      omega
  | noStk =>
      show changedRows db db ≤ 1
      rw [changedRows_self]
      omega
  | stk cb =>
      by_cases hx : exactMatches db cb.CheckoutRequestID = []
      · cases hw : wildcardMatches db cb.CheckoutRequestID with
        | nil =>
            rw [callbackApply_notFound db cb hx hw, changedRows_self]
            omega
        | cons first rest =>
            rw [callbackApply_fallback db cb first rest hx hw]
            unfold updateById
            refine le_trans
              (changedRows_map_le db _ (fun p => decide (p.id = first.id)) ?_) ?_
            · intro p hp
              exact if_neg (by simpa using hp)
            · exact countP_key_le_one Payment.id first.id db hid
      · rw [callbackApply_exact db cb hx]
        unfold updateByReceipt
        refine le_trans
          (changedRows_map_le db _
            (fun p => decide (p.mpesa_receipt = cb.CheckoutRequestID)) ?_) ?_
        · intro p hp
          exact if_neg (by simpa using hp)
        · exact countP_key_le_one Payment.mpesa_receipt cb.CheckoutRequestID db hrec

/-- C9 witness: with two distinct-keyed rows, the successful callback for
`ws_CO_1` changes at most one of them. -/
theorem c9_at_most_one_row_changed_witness :
    (([exPend, exContain].map Payment.id).Nodup
      ∧ ([exPend, exContain].map Payment.mpesa_receipt).Nodup)
    ∧ changedRows [exPend, exContain]
        (callbackHandler [exPend, exContain] (CallbackReq.stk exCbOk)).1 ≤ 1 :=
  ⟨⟨by decide, by decide⟩,
    c9_at_most_one_row_changed [exPend, exContain] (CallbackReq.stk exCbOk)
      (by decide) (by decide)⟩

end MpesaRoutes
